import Mathlib

/-!
Verification development for the mltrack model registry
(`src/mltrack/model_registry.py`).

The registry keeps, per model name, a JSON file
`~/.mltrack/registry/<model_name>.json` holding `{"models": [...]}`: an
insertion-ordered list of metadata records, one per registered version.
We embed that state as `List ModelRecord` (the parsed list for one model
name; `list_models` additionally ranges over the files of all names,
embedded as `List (List ModelRecord)`).

External effects are made explicit:
* `datetime.utcnow()` draws are passed in as parameters (each call site of
  `utcnow()` in the Python code corresponds to one parameter or field);
* `hashlib.sha256(...).digest` is an oracle `String → Nat` (the 256-bit
  digest value of the input bytes); its hex rendering `hexdigest()` is
  embedded concretely below, since a sha256 digest is exactly 32 bytes;
* S3 calls are represented by their outcome (`Except String Unit`);
* functions that in Python raise return `Except String _` here, and
  operations that write the registry file return the pair
  (file contents after the call, outcome).
-/

namespace MLTrack

/-- One entry of the per-model registry file: the `model_metadata` dict
built in `ModelRegistry.register_model` (model_registry.py lines 83-105,
114), plus the two fields that `transition_model_stage` adds later
(`stage_transitioned_at`, `archived_at`), absent (`none`) at registration.
Python float metric values are only ever copied, never computed with, so
metric values are embedded as opaque strings; dicts preserve insertion
order in the JSON file, so maps are association lists. -/
structure ModelRecord where
  model_name : String
  run_id : String
  experiment_id : String
  stage : String
  registered_at : String
  mlflow_version : String
  description : String
  tags : List (String × String)
  metrics : List (String × String)
  params : List (String × String)
  git_commit : String
  user : String
  framework : String
  custom_metadata : List (String × String)
  version : String
  s3_location : Option String
  stage_transitioned_at : Option String
  archived_at : Option String
  deriving Repr, DecidableEq

/-- The metric/param/tag snapshot of the source MLflow run, as returned by
`self.mlflow_client.get_run(run_id)` (line 80): `run.data.metrics`,
`run.data.params`, `run.data.tags` and `run.info.experiment_id`. -/
structure RunInfo where
  experiment_id : String
  metrics : List (String × String)
  params : List (String × String)
  tags : List (String × String)
  deriving Repr, DecidableEq

/-- `d.get(key, "")` on a Python dict embedded as an association list. -/
def dictGet (d : List (String × String)) (k : String) : String :=
  match d.find? (fun p => p.1 == k) with
  | some p => p.2
  | none => ""

/-- One `datetime.utcnow()` draw: the `isoformat()` rendering (microsecond
resolution) together with the calendar fields that `strftime` reads. -/
structure UtcNow where
  iso : String
  year : Nat
  month : Nat
  day : Nat
  deriving Repr, DecidableEq

/-- Fixed-width zero-padded decimal rendering (the behavior of `strftime`
field directives for in-range values: `%Y` is 4 digits for years up to
9999, `%m` and `%d` are 2 digits). -/
def padNum (w n : Nat) : String :=
  String.mk ((List.range w).map (fun i => Nat.digitChar (n / 10 ^ (w - 1 - i) % 10)))

/-- `datetime.utcnow().strftime("%Y%m%d")` (line 104). -/
def dateStamp (t : UtcNow) : String :=
  padNum 4 t.year ++ padNum 2 t.month ++ padNum 2 t.day

/-- The 64 hex characters of `hexdigest()` of a sha256 digest `n`
(a 256-bit value rendered big-endian, lowercase, zero-padded: the digest
is exactly 32 bytes, so the hex string is exactly 64 characters). -/
def hexDigits (n : Nat) : List Char :=
  (List.range 64).map (fun i => Nat.digitChar (n / 16 ^ (63 - i) % 16))

/-- `hashlib.sha256(x).hexdigest()` for a digest oracle value `n`. -/
def hexDigest (n : Nat) : String :=
  String.mk (hexDigits n)

/-- The string hashed at lines 101-103:
`f"{model_name}:{run_id}:{datetime.utcnow().isoformat()}"`. -/
def hashInput (model_name run_id iso : String) : String :=
  model_name ++ ":" ++ run_id ++ ":" ++ iso

/-- `version_hash` (lines 101-103): `sha256(...).hexdigest()[:8]`,
written at the character-list level (`[:8]` is `take 8`). -/
def versionHash (sha256 : String → Nat) (model_name run_id iso : String) : String :=
  String.mk ((hexDigits (sha256 (hashInput model_name run_id iso))).take 8)

/-- `model_version` (line 104):
`f"v{datetime.utcnow().strftime('%Y%m%d')}_{version_hash}"`.
`iso` is the `utcnow()` draw inside the hash (line 102), `date` the
rendering of the separate `utcnow()` draw at line 104. -/
def versionId (sha256 : String → Nat) (model_name run_id iso date : String) : String :=
  "v" ++ date ++ "_" ++ versionHash sha256 model_name run_id iso

/-- Everything `register_model` reads from its surroundings: the
`utcnow()` draws at lines 88, 102 and 104, the digest oracle, the S3
configuration of the `ModelRegistry` object, and the outcomes of the two
S3 calls (`_upload_directory_to_s3` at line 117 and the metadata
`put_object` at lines 121-126). -/
structure RegisterEnv where
  sha256 : String → Nat
  now1 : UtcNow
  now2 : UtcNow
  now3 : UtcNow
  mlflowVersion : String
  s3Configured : Bool
  s3Bucket : String
  s3Root : String
  uploadDirResult : Except String Unit
  putMetadataResult : Except String Unit

/-- `ModelRegistry.register_model` (lines 55-160), restricted to its
effect on the registry file of `model_name`. Returns (file contents
after the call, outcome). Notes tying this to the code:
* the metadata dict is built at lines 83-98, the version id at 100-105;
* when S3 is configured (line 112), `s3_location` is recorded and the
  artifact directory and then the metadata object are uploaded
  (lines 113-126); an exception from either call propagates out of
  `register_model` before the registry file is touched, so the file
  keeps its previous contents;
* the MLflow model registry block at lines 129-142 is wrapped in
  `try/except` that only prints, so it has no effect on the result;
* the local registry write (lines 144-158) appends the new record to the
  parsed list and rewrites the file; it is reached only after the
  uploads succeeded. -/
def register_model (env : RegisterEnv) (run : RunInfo) (run_id model_name : String)
    (stage : String) (description : Option String)
    (tags : Option (List (String × String)))
    (metadata : Option (List (String × String)))
    (models : List ModelRecord) :
    List ModelRecord × Except String ModelRecord :=
  let model_version := versionId env.sha256 model_name run_id env.now2.iso (dateStamp env.now3)
  let md0 : ModelRecord :=
    { model_name := model_name
      run_id := run_id
      experiment_id := run.experiment_id
      stage := stage
      registered_at := env.now1.iso
      mlflow_version := env.mlflowVersion
      description := description.getD ""
      tags := tags.getD []
      metrics := run.metrics
      params := run.params
      git_commit := dictGet run.tags ("mlflow.source.git.commit")
      user := dictGet run.tags ("mlflow.user")
      framework := dictGet run.tags ("mlflow.source.type")
      custom_metadata := metadata.getD []
      version := model_version
      s3_location := none
      stage_transitioned_at := none
      archived_at := none }
  if env.s3Configured then
    let s3_key := env.s3Root ++ "/" ++ model_name ++ "/" ++ model_version
    let md := { md0 with s3_location := some ("s3://" ++ env.s3Bucket ++ "/" ++ s3_key) }
    match env.uploadDirResult with
    | Except.error e => (models, Except.error e)
    | Except.ok _ =>
      match env.putMetadataResult with
      | Except.error e => (models, Except.error e)
      | Except.ok _ => (models ++ [md], Except.ok md)
  else
    (models ++ [md0], Except.ok md0)

/-- `ModelRegistry.get_model` (lines 184-213) on the parsed record list of
an existing registry file (a missing file raises at line 197 before
anything else happens). Mirrors the code: empty list raises (line 204);
an explicit version is looked up by exact match over the list in file
order (lines 206-210); with `version` omitted the code returns
`models[0]`, the head of the insertion-ordered list (line 213). -/
def get_model (models : List ModelRecord) (version : Option String) :
    Except String ModelRecord :=
  match models, version with
  | [], _ => Except.error ("No versions found for model")
  | m0 :: _, none => Except.ok m0
  | m0 :: rest, some v =>
    match (m0 :: rest).find? (fun m => m.version == v) with
    | some m => Except.ok m
    | none => Except.error ("Version " ++ v ++ " not found for model")

/-- The stage filter of `list_models` (line 179):
`stage is None or model.get("stage") == stage`. -/
def stageMatches (stage : Option String) (m : ModelRecord) : Bool :=
  match stage with
  | none => true
  | some s => m.stage == s

/-- `ModelRegistry.list_models` (lines 162-182). The registry directory
holds one file per model name; `registry` is the list of their parsed
record lists, in directory-glob order. The code collects every record
passing the stage filter and returns
`sorted(models, key=lambda x: x.get("registered_at", ""), reverse=True)`:
a stable sort, descending by the `registered_at` string. It opens the
files read-only and never writes, which is why this embedding is a pure
function of the registry state with no state component in its result. -/
def list_models (stage : Option String) (registry : List (List ModelRecord)) :
    List ModelRecord :=
  let models := (registry.map (fun file => file.filter (stageMatches stage))).flatten
  models.mergeSort (fun a b => decide (b.registered_at ≤ a.registered_at))

/-- The loop body of the archive pass of `transition_model_stage`
(lines 342-345): a record currently at production has its stage set to
archived and `archived_at` stamped; any other record is untouched. The
code draws `utcnow()` once per archived record; those draws are
collapsed into the single parameter `nowA`, which no claim below
distinguishes. -/
def archiveOne (nowA : String) (m : ModelRecord) : ModelRecord :=
  if m.stage == "production" then
    { m with stage := "archived", archived_at := some nowA }
  else m

/-- The guard and loop of lines 341-345: the archive pass runs only when
the new stage is production and `archive_existing` is set. -/
def archivePass (stage : String) (archive_existing : Bool) (nowA : String)
    (models : List ModelRecord) : List ModelRecord :=
  if stage == "production" && archive_existing then
    models.map (archiveOne nowA)
  else models

/-- The target-update loop of `transition_model_stage` (lines 347-354):
walk the list in order, update the first record whose version matches
(setting `stage` and stamping `stage_transitioned_at`), and stop
(`break`). Returns the updated list and the updated record, or `none`
when no record matches. -/
def updateFirst (version stage nowT : String) :
    List ModelRecord → Option (List ModelRecord × ModelRecord)
  | [] => none
  | m :: ms =>
    if m.version == version then
      let m2 := { m with stage := stage, stage_transitioned_at := some nowT }
      some (m2 :: ms, m2)
    else
      match updateFirst version stage nowT ms with
      | some (ms2, u) => some (m :: ms2, u)
      | none => none

/-- `ModelRegistry.transition_model_stage` (lines 314-374) on the parsed
record list of an existing registry file for the model name (a missing
file raises at line 335 before anything else happens). Returns (file
contents after the call, outcome). The code parses the file, runs the
archive pass, then the target-update loop; if the target version is
absent it raises at line 357 BEFORE the file write at lines 360-361, so
the file keeps its previous contents. On success the mutated list is
written back in full. The trailing MLflow call (lines 364-372) is
wrapped in `try/except` that only prints. -/
def transition_model_stage (version stage : String) (archive_existing : Bool)
    (nowA nowT : String) (models : List ModelRecord) :
    List ModelRecord × Except String ModelRecord :=
  let ms1 := archivePass stage archive_existing nowA models
  match updateFirst version stage nowT ms1 with
  | some (ms2, u) => (ms2, Except.ok u)
  | none => (models, Except.error ("Version " ++ version ++ " not found"))

/-- Decidable equality of `Except` outcomes, needed to evaluate concrete
registry computations inside witnesses and counterexamples. -/
instance {ε α : Type} [DecidableEq ε] [DecidableEq α] : DecidableEq (Except ε α) := fun a b =>
  match a, b with
  | Except.ok x, Except.ok y =>
    if h : x = y then isTrue (by rw [h]) else isFalse (by simp [h])
  | Except.error x, Except.error y =>
    if h : x = y then isTrue (by rw [h]) else isFalse (by simp [h])
  | Except.ok _, Except.error _ => isFalse (by simp)
  | Except.error _, Except.ok _ => isFalse (by simp)

/-- A model artifact directory as `_load_model_from_path` observes it,
after download: whether the `MLmodel` marker file exists, and the files
matched by each extension glob, each paired with the outcome its loader
(`mlflow.pyfunc.load_model`, `pickle.load`, `joblib.load`,
`cloudpickle.load`) would produce on it. Loaded model handles are
opaque, embedded as strings. -/
structure ArtifactDir where
  path : String
  hasMLmodel : Bool
  mlflowLoadResult : Except String String
  pklFiles : List (String × Except String String)
  joblibFiles : List (String × Except String String)
  cloudpickleFiles : List (String × Except String String)
  deriving Repr, DecidableEq

/-- `ModelRegistry._load_model_from_path` (lines 402-422). The code has
no `try/except`: if the `MLmodel` marker exists it returns whatever
`mlflow.pyfunc.load_model` produces, an exception included; otherwise it
returns from inside the FIRST iteration of the first non-empty glob loop
(`*.pkl`, then `*.joblib`, then `*.cloudpickle`), a loader exception
again propagating; only when the marker is absent and all three globs
are empty does it raise `ValueError(f"Could not load model from ...")`,
whose message names the path and nothing else. -/
def load_model_from_path (d : ArtifactDir) : Except String String :=
  if d.hasMLmodel then d.mlflowLoadResult
  else
    match d.pklFiles with
    | (_, r) :: _ => r
    | [] =>
      match d.joblibFiles with
      | (_, r) :: _ => r
      | [] =>
        match d.cloudpickleFiles with
        | (_, r) :: _ => r
        | [] => Except.error ("Could not load model from " ++ d.path)

/-- The loader behavior as the specification describes it (spec section
4.5), for comparison with `load_model_from_path`: strategies tried in
order, EACH WRAPPED so that a failure falls through to the next, and a
final error naming every attempted strategy and its error. Defined only
to state the refinement comparison of claim C5; the code definition
above is the authority. -/
def specFallbackLoad (d : ArtifactDir) : Except (List (String × String)) String :=
  let step := fun (tried : List (String × String)) (name : String)
      (r : Except String String) =>
    match r with
    | Except.ok h => Except.ok h
    | Except.error e => Except.error (tried ++ [(name, e)])
  let attempts : List (String × Except String String) :=
    (if d.hasMLmodel then [(("mlflow"), d.mlflowLoadResult)] else [])
      ++ d.pklFiles.map (fun p => (("pickle:" ++ p.1), p.2))
      ++ d.joblibFiles.map (fun p => (("joblib:" ++ p.1), p.2))
      ++ d.cloudpickleFiles.map (fun p => (("cloudpickle:" ++ p.1), p.2))
  attempts.foldl
    (fun acc a =>
      match acc with
      | Except.ok h => Except.ok h
      | Except.error tried => step tried a.1 a.2)
    (Except.error [])

/-- Convenience constructor for concrete registry states in witnesses
and counterexamples: a record with the given version, stage and
registration time, every other field defaulted. -/
def mkRec (v st ts : String) : ModelRecord :=
  { model_name := "churn"
    run_id := "run-1"
    experiment_id := "0"
    stage := st
    registered_at := ts
    mlflow_version := "2.0"
    description := ""
    tags := []
    metrics := []
    params := []
    git_commit := ""
    user := ""
    framework := ""
    custom_metadata := []
    version := v
    s3_location := none
    stage_transitioned_at := none
    archived_at := none }

/-- Concrete production record used by witnesses. -/
def recProd1 : ModelRecord := mkRec ("v1") ("production") ("t1")

/-- Concrete staging record used by witnesses. -/
def recStag2 : ModelRecord := mkRec ("v2") ("staging") ("t2")

/-- `recStag2` as it looks after being promoted to production at `tT`. -/
def recStag2Prod : ModelRecord := { recStag2 with
  stage := "production", stage_transitioned_at := some ("tT") }

/-- A production record carrying an old `stage_transitioned_at` stamp. -/
def recOld1 : ModelRecord := { recProd1 with
  stage_transitioned_at := some ("t0") }

/-- `recOld1` as it looks after being archived by the archive pass at
`tA`: the stage and `archived_at` change, `stage_transitioned_at` keeps
its old value. -/
def recOld1Arch : ModelRecord := { recOld1 with
  stage := "archived", archived_at := some ("tA") }

/-- Lowercase hexadecimal digit test: the characters `hexdigest()` can
produce. -/
def isLowerHexDigit (c : Char) : Bool :=
  c.isDigit || (c == 'a' || c == 'b' || c == 'c' || c == 'd' || c == 'e' || c == 'f')

/-- Concrete stand-in for the sha256 digest oracle in witnesses and
counterexamples. Every fact proved with it holds for any oracle — in
particular for real sha256 — because those facts depend only on the
oracle being a FUNCTION, never on its values: two calls hashing the same
input string get the same digest. The `16 ^ 62` scaling places the
input-length information in the leading hex digits, which survive the
`[:8]` truncation. -/
def demoHash (s : String) : Nat := s.length * 16 ^ 62

/-- A concrete source-run snapshot for witnesses. -/
def demoRun : RunInfo :=
  { experiment_id := "0"
    metrics := [("accuracy", "0.93")]
    params := [("n_estimators", "100")]
    tags := [("mlflow.user", "alice")] }

/-- A concrete `utcnow()` draw. -/
def tSame : UtcNow := ⟨"2026-01-01T12:00:00.000000", 2026, 1, 1⟩

/-- A later `utcnow()` draw in the same second, different microsecond. -/
def tLater : UtcNow := ⟨"2026-01-01T12:00:00.000001", 2026, 1, 1⟩

/-- Environment for a registration whose artifact upload fails. -/
def envUploadFail : RegisterEnv :=
  { sha256 := demoHash
    now1 := tSame
    now2 := tSame
    now3 := tSame
    mlflowVersion := "2.0"
    s3Configured := true
    s3Bucket := "models-bucket"
    s3Root := "mltrack/models"
    uploadDirResult := Except.error ("upload failed")
    putMetadataResult := Except.ok () }

/-- Environment for a registration in which every external call
succeeds, S3 unconfigured (the Local variant). -/
def envOk : RegisterEnv :=
  { sha256 := demoHash
    now1 := tSame
    now2 := tSame
    now3 := tSame
    mlflowVersion := "2.0"
    s3Configured := false
    s3Bucket := ""
    s3Root := "mltrack/models"
    uploadDirResult := Except.ok ()
    putMetadataResult := Except.ok () }

/-- A successful registration on an empty registry file. -/
def regOkCall : List ModelRecord × Except String ModelRecord :=
  register_model envOk demoRun ("run-1") ("churn") ("staging") none
    (some [("team", "ml")]) none []

/-- The record returned by `regOkCall`. -/
def regOkRec : ModelRecord :=
  match regOkCall.2 with
  | Except.ok m => m
  | Except.error _ => recProd1

/-- First of two registrations made with identical inputs and identical
`utcnow()` draws (two calls inside the same microsecond, hence inside
the same second). -/
def regSame1 : List ModelRecord × Except String ModelRecord :=
  register_model envOk demoRun ("run-1") ("churn") ("staging") none none none []

/-- The second such registration, run on the registry state the first
one produced. -/
def regSame2 : List ModelRecord × Except String ModelRecord :=
  register_model envOk demoRun ("run-1") ("churn") ("staging") none none none
    regSame1.1

/-- The version id a registration outcome carries, if it succeeded. -/
def versionOfOutcome (r : List ModelRecord × Except String ModelRecord) :
    Option String :=
  match r.2 with
  | Except.ok m => some m.version
  | Except.error _ => none

/-- Artifact directory whose `MLmodel` marker is present but whose
mlflow loader fails, while a loadable pickle file is also present. -/
def dirMarkerFails : ArtifactDir :=
  { path := "/tmp/model"
    hasMLmodel := true
    mlflowLoadResult := Except.error ("mlflow load failed")
    pklFiles := [(("model.pkl"), Except.ok ("pickle-model"))]
    joblibFiles := []
    cloudpickleFiles := [] }

/-- Artifact directory recognized only by the second-priority strategy:
no marker, one loadable pickle file. -/
def dirPklOnly : ArtifactDir :=
  { path := "/tmp/p"
    hasMLmodel := false
    mlflowLoadResult := Except.error ("unused")
    pklFiles := [(("model.pkl"), Except.ok ("pickle-model"))]
    joblibFiles := []
    cloudpickleFiles := [] }

/-- Artifact directory with no recognizable file at all. -/
def dirEmpty : ArtifactDir :=
  { path := "/tmp/empty"
    hasMLmodel := false
    mlflowLoadResult := Except.error ("unused")
    pklFiles := []
    joblibFiles := []
    cloudpickleFiles := [] }

/-- Artifact directory where every applicable strategy fails. -/
def dirAllFail : ArtifactDir :=
  { path := "/tmp/bad"
    hasMLmodel := true
    mlflowLoadResult := Except.error ("mlflow boom")
    pklFiles := [(("m.pkl"), Except.error ("pickle boom"))]
    joblibFiles := []
    cloudpickleFiles := [] }

/-! ### Shared lemmas about the transition operation -/

theorem archiveOne_version (nowA : String) (m : ModelRecord) :
    (archiveOne nowA m).version = m.version := by
  unfold archiveOne; split <;> rfl

theorem archiveOne_sta (nowA : String) (m : ModelRecord) :
    (archiveOne nowA m).stage_transitioned_at = m.stage_transitioned_at := by
  unfold archiveOne; split <;> rfl

theorem archiveOne_stage_ne (nowA : String) (m : ModelRecord) :
    (archiveOne nowA m).stage ≠ "production" := by
  unfold archiveOne
  by_cases h : (m.stage == "production") = true
  · simp only [h, if_true]
    intro hc
    exact absurd hc (by decide)
  · simp only [h]
    simp only [Bool.false_eq_true, if_false]
    intro hc
    exact h (by simp [hc])

theorem archiveOne_of_production (nowA : String) (m : ModelRecord)
    (h : m.stage = "production") :
    archiveOne nowA m = { m with stage := "archived", archived_at := some nowA } := by
  simp [archiveOne, h]

theorem archivePass_production_true (nowA : String) (models : List ModelRecord) :
    archivePass "production" true nowA models = models.map (archiveOne nowA) := by
  simp [archivePass]

theorem archivePass_off (s : String) (a : Bool) (nowA : String)
    (models : List ModelRecord) (h : s ≠ "production" ∨ a = false) :
    archivePass s a nowA models = models := by
  unfold archivePass
  rcases h with h | h
  · have : (s == "production") = false := by simpa [beq_iff_eq] using h
    simp [this]
  · simp [h]

/-- Characterization of a successful target-update loop (lines 347-354):
it rewrites exactly the first position whose version matches, setting the
stage and stamping `stage_transitioned_at`, and returns that record. -/
theorem updateFirst_spec (v s t : String) :
    ∀ {ms ms2 : List ModelRecord} {u : ModelRecord},
      updateFirst v s t ms = some (ms2, u) →
      ∃ k, ∃ hk : k < ms.length,
        (ms.get ⟨k, hk⟩).version = v ∧
        u = { ms.get ⟨k, hk⟩ with stage := s, stage_transitioned_at := some t } ∧
        ms2 = ms.set k u ∧
        ∀ j, (hj : j < ms.length) → j < k → (ms.get ⟨j, hj⟩).version ≠ v := by
  intro ms
  induction ms with
  | nil => intro ms2 u h; simp [updateFirst] at h
  | cons m tail ih =>
    intro ms2 u h
    by_cases hv : (m.version == v) = true
    · rw [updateFirst, if_pos hv] at h
      obtain ⟨h1, h2⟩ := Prod.mk.injEq .. ▸ Option.some.inj h
      refine ⟨0, by simp, ?_, ?_, ?_, ?_⟩
      · simpa using hv
      · exact h2.symm
      · rw [← h1, List.set]
        exact congrArg (fun x => x :: tail) h2
      · intro j hj hj0; omega
    · rw [updateFirst, if_neg hv] at h
      cases hrec : updateFirst v s t tail with
      | none => rw [hrec] at h; simp at h
      | some p =>
        obtain ⟨ms', u'⟩ := p
        rw [hrec] at h
        obtain ⟨h1, h2⟩ := Prod.mk.injEq .. ▸ Option.some.inj h
        obtain ⟨k, hk, hver, hu, hset, hfirst⟩ := ih hrec
        refine ⟨k + 1, by simpa using Nat.succ_lt_succ hk, ?_, ?_, ?_, ?_⟩
        · simpa using hver
        · rw [← h2]; simpa using hu
        · rw [← h1, hset, h2]; rfl
        · intro j hj hjk
          cases j with
          | zero =>
            simp only [List.get]
            intro hc
            exact hv (by simp [hc])
          | succ j0 =>
            have hj0 : j0 < tail.length := by simpa using hj
            simpa using hfirst j0 hj0 (by omega)

/-- The target-update loop finds nothing when no record carries the
requested version. -/
theorem updateFirst_none (v s t : String) :
    ∀ {ms : List ModelRecord}, (∀ m ∈ ms, m.version ≠ v) →
      updateFirst v s t ms = none := by
  intro ms
  induction ms with
  | nil => intro _; rfl
  | cons m tail ih =>
    intro h
    have hm : (m.version == v) = false := by
      simpa [beq_iff_eq] using h m (by simp)
    rw [updateFirst, if_neg (by simp [hm]), ih (fun x hx => h x (by simp [hx]))]

/-- A successful `transition_model_stage` call updated exactly the first
record of the archive-passed list whose version matches. -/
theorem transition_ok_spec (v s : String) (a : Bool) (nowA nowT : String)
    (models ms2 : List ModelRecord) (u : ModelRecord)
    (h : transition_model_stage v s a nowA nowT models = (ms2, Except.ok u)) :
    ∃ k, ∃ hk : k < (archivePass s a nowA models).length,
      ((archivePass s a nowA models).get ⟨k, hk⟩).version = v ∧
      u = { (archivePass s a nowA models).get ⟨k, hk⟩ with
              stage := s, stage_transitioned_at := some nowT } ∧
      ms2 = (archivePass s a nowA models).set k u := by
  simp only [transition_model_stage] at h
  cases hup : updateFirst v s nowT (archivePass s a nowA models) with
  | none => rw [hup] at h; simp at h
  | some p =>
    obtain ⟨ms', u'⟩ := p
    rw [hup] at h
    obtain ⟨h1, h2⟩ := Prod.mk.injEq .. ▸ h
    have h2u : u' = u := Except.ok.inj h2
    obtain ⟨k, hk, hver, hu, hset, _⟩ := updateFirst_spec v s nowT hup
    exact ⟨k, hk, hver, h2u ▸ hu, h1 ▸ h2u ▸ hset⟩

/-- A `transition_model_stage` call whose target version is absent from
the registry file raises before the file write, leaving the file
contents exactly as they were. -/
theorem transition_not_found (v s : String) (a : Bool) (nowA nowT : String)
    (models : List ModelRecord) (h : ∀ m ∈ models, m.version ≠ v) :
    transition_model_stage v s a nowA nowT models
      = (models, Except.error ("Version " ++ v ++ " not found")) := by
  have hall : ∀ m ∈ archivePass s a nowA models, m.version ≠ v := by
    intro m hm
    unfold archivePass at hm
    split at hm
    · obtain ⟨m0, hm0, rfl⟩ := List.mem_map.mp hm
      rw [archiveOne_version]; exact h m0 hm0
    · exact h m hm
  simp only [transition_model_stage]
  rw [updateFirst_none v s nowT hall]

/-! ### C1 -/

/-- C1 (amended): after any successful
`transition_model_stage(model_name, version, stage="production",
archive_existing=True)`, the registry file for that model name contains
exactly one record with stage production, namely the transitioned one;
and every record that was at production before the call, OTHER THAN the
transitioned record itself, has stage archived after the call. The
original claim omits the exception for the transitioned record; the
counterexample below shows it is needed when the promoted version is the
one already in production. -/
theorem C1_at_most_one_production (v nowA nowT : String)
    (models ms2 : List ModelRecord) (u : ModelRecord)
    (h : transition_model_stage v "production" true nowA nowT models
          = (ms2, Except.ok u)) :
    u.stage = "production" ∧
    ms2.countP (fun m => m.stage == "production") = 1 ∧
    (∀ m ∈ ms2, m.stage = "production" → m = u) ∧
    (∀ j : Nat, models[j]?.map (fun m : ModelRecord => m.stage) = some ("production") →
      ms2[j]? = some u ∨ ms2[j]?.map (fun m : ModelRecord => m.stage) = some ("archived")) := by
  obtain ⟨k, hk, hver, hu, hms2⟩ :=
    transition_ok_spec v ("production") true nowA nowT models ms2 u h
  have hustage : u.stage = "production" := by rw [hu]
  have hnoprod : ∀ m ∈ archivePass ("production") true nowA models,
      m.stage ≠ "production" := by
    intro m hm
    rw [archivePass_production_true] at hm
    obtain ⟨m0, _, rfl⟩ := List.mem_map.mp hm
    exact archiveOne_stage_ne nowA m0
  have hdecomp : ms2 = (archivePass ("production") true nowA models).take k
      ++ u :: (archivePass ("production") true nowA models).drop (k + 1) := by
    rw [hms2, List.set_eq_take_append_cons_drop, if_pos hk]
  have hcount : ms2.countP (fun m => m.stage == "production") = 1 := by
    rw [hdecomp, List.countP_append, List.countP_cons]
    have h1 : ((archivePass ("production") true nowA models).take k).countP
        (fun m => m.stage == "production") = 0 :=
      List.countP_eq_zero.mpr (fun m hm => by
        simpa [beq_iff_eq] using hnoprod m ((List.take_sublist k _).subset hm))
    have h2 : ((archivePass ("production") true nowA models).drop (k + 1)).countP
        (fun m => m.stage == "production") = 0 :=
      List.countP_eq_zero.mpr (fun m hm => by
        simpa [beq_iff_eq] using hnoprod m ((List.drop_sublist (k + 1) _).subset hm))
    rw [h1, h2]
    simp [hustage]
  refine ⟨hustage, hcount, ?_, ?_⟩
  · intro m hm hmstage
    rw [hdecomp] at hm
    rcases List.mem_append.mp hm with hm | hm
    · exact absurd hmstage (hnoprod m ((List.take_sublist k _).subset hm))
    · rcases List.mem_cons.mp hm with hm | hm
      · exact hm
      · exact absurd hmstage (hnoprod m ((List.drop_sublist (k + 1) _).subset hm))
  · intro j hj
    obtain ⟨m0, hm0get, hm0stage⟩ : ∃ m0, models[j]? = some m0 ∧ m0.stage = "production" := by
      cases hget : models[j]? with
      | none => rw [hget] at hj; simp at hj
      | some m0 =>
        rw [hget] at hj
        exact ⟨m0, rfl, by simpa using hj⟩
    by_cases hjk : j = k
    · left
      rw [hms2, hjk, List.getElem?_set_self hk]
    · right
      rw [hms2, List.getElem?_set_ne (fun he => hjk he.symm),
        archivePass_production_true, List.getElem?_map, hm0get]
      have : (archiveOne nowA m0).stage = "archived" := by
        rw [archiveOne_of_production nowA m0 hm0stage]
      simp [this]

/-- C1 counterexample: in a registry whose single record `v1` is already
at production, promoting `v1` itself with `archive_existing=True`
succeeds, and afterwards `v1` — a record that had stage production
before the call — is at production, not archived, contradicting the
claim that every previously-production record is archived afterwards. -/
theorem C1_counterexample :
    (transition_model_stage ("v1") ("production") true ("tA") ("tT")
        [mkRec ("v1") ("production") ("t0")]).2
      = Except.ok { mkRec ("v1") ("production") ("t0") with
          stage := "production", stage_transitioned_at := some ("tT"),
          archived_at := some ("tA") } ∧
    (mkRec ("v1") ("production") ("t0")).stage = "production" ∧
    (transition_model_stage ("v1") ("production") true ("tA") ("tT")
        [mkRec ("v1") ("production") ("t0")]).1.map (fun m => m.stage)
      = ["production"] := by
  decide

/-- Witness for `C1_at_most_one_production`: a concrete registry with a
prior production version `v1` and a staging version `v2`; promoting `v2`
leaves exactly one production record. -/
theorem C1_at_most_one_production_witness :
    ([{ mkRec ("v1") ("production") ("t1") with
          stage := "archived", archived_at := some ("tA") },
      { mkRec ("v2") ("staging") ("t2") with
          stage := "production", stage_transitioned_at := some ("tT") }].countP
        (fun m => m.stage == "production") = 1) ∧
    ({ mkRec ("v2") ("staging") ("t2") with
        stage := "production", stage_transitioned_at := some ("tT") } :
        ModelRecord).stage = "production" := by
  have h := C1_at_most_one_production ("v2") ("tA") ("tT")
    [mkRec ("v1") ("production") ("t1"), mkRec ("v2") ("staging") ("t2")]
    [{ mkRec ("v1") ("production") ("t1") with
        stage := "archived", archived_at := some ("tA") },
     { mkRec ("v2") ("staging") ("t2") with
        stage := "production", stage_transitioned_at := some ("tT") }]
    { mkRec ("v2") ("staging") ("t2") with
        stage := "production", stage_transitioned_at := some ("tT") }
    (by decide)
  exact ⟨h.2.1, h.1⟩

/-! ### C4 -/

/-- C4: a `transition_model_stage` call for a version id that is absent
from the registry file of the model name raises (the `ValueError` of
line 357 is what the spec calls `VersionNotFoundError`) and leaves the
persisted registry file unchanged — the in-memory archive pass is never
written because the raise at line 357 precedes the file write at lines
360-361. In particular the number of records at stage production is
unchanged, so a failed transition never newly creates two simultaneous
production versions. -/
theorem C4_not_found_state_unchanged (v s : String) (a : Bool)
    (nowA nowT : String) (models : List ModelRecord)
    (h : ∀ m ∈ models, m.version ≠ v) :
    (transition_model_stage v s a nowA nowT models).1 = models ∧
    (transition_model_stage v s a nowA nowT models).2
      = Except.error ("Version " ++ v ++ " not found") ∧
    (transition_model_stage v s a nowA nowT models).1.countP
        (fun m => m.stage == "production")
      = models.countP (fun m => m.stage == "production") := by
  rw [transition_not_found v s a nowA nowT models h]
  exact ⟨rfl, rfl, rfl⟩

/-- Witness for `C4_not_found_state_unchanged`: transitioning the absent
version `v9` in a one-record registry. -/
theorem C4_not_found_state_unchanged_witness :
    (transition_model_stage ("v9") ("production") true ("tA") ("tT")
        [recProd1]).1 = [recProd1] ∧
    (transition_model_stage ("v9") ("production") true ("tA") ("tT")
        [recProd1]).2
      = Except.error ("Version " ++ "v9" ++ " not found") ∧
    (transition_model_stage ("v9") ("production") true ("tA") ("tT")
        [recProd1]).1.countP (fun m => m.stage == "production")
      = [recProd1].countP (fun m => m.stage == "production") :=
  C4_not_found_state_unchanged ("v9") ("production") true ("tA") ("tT")
    [recProd1] (by decide)

/-! ### C6 -/

/-- Per-index behavior of the archive pass: it preserves every record
version and every `stage_transitioned_at` field (it only ever touches
`stage` and `archived_at`). -/
theorem archivePass_preserves (s : String) (a : Bool) (nowA : String)
    (models : List ModelRecord) (j : Nat) :
    (archivePass s a nowA models)[j]?.map (fun m : ModelRecord => m.version)
      = models[j]?.map (fun m : ModelRecord => m.version) ∧
    (archivePass s a nowA models)[j]?.map
        (fun m : ModelRecord => m.stage_transitioned_at)
      = models[j]?.map (fun m : ModelRecord => m.stage_transitioned_at) := by
  unfold archivePass
  split
  · constructor <;>
    · rw [List.getElem?_map]
      cases models[j]? <;> simp [archiveOne_version, archiveOne_sta]
  · exact ⟨rfl, rfl⟩

/-- C6 (amended): a successful `transition_model_stage` sets
(overwrites) `stage_transitioned_at` on the TARGET record; but a record
whose stage is changed as a side effect — archived because another
version is promoted — keeps its previous `stage_transitioned_at`
unchanged: the archive loop at lines 342-345 stamps `archived_at`
instead. The original claim says the field is set on EVERY stage change
including side-effect archiving; the counterexample below refutes that. -/
theorem C6_stage_transitioned_at_target_only (v s : String) (a : Bool)
    (nowA nowT : String) (models ms2 : List ModelRecord) (u : ModelRecord)
    (h : transition_model_stage v s a nowA nowT models = (ms2, Except.ok u)) :
    u.stage_transitioned_at = some nowT ∧
    (∀ j : Nat, ∀ m : ModelRecord, models[j]? = some m → m.version ≠ v →
      ms2[j]?.map (fun r : ModelRecord => r.stage_transitioned_at)
        = some m.stage_transitioned_at) := by
  obtain ⟨k, hk, hver, hu, hms2⟩ := transition_ok_spec v s a nowA nowT models ms2 u h
  refine ⟨by rw [hu], ?_⟩
  intro j m hm hmv
  have hjk : j ≠ k := by
    intro hjk
    subst hjk
    apply hmv
    have h1 : (archivePass s a nowA models)[j]?
        = some ((archivePass s a nowA models).get ⟨j, hk⟩) := by
      rw [List.get_eq_getElem, List.getElem?_eq_getElem hk]
    have h2 := (archivePass_preserves s a nowA models j).1
    rw [h1, hm] at h2
    simp only [Option.map] at h2
    exact (Option.some.inj h2) ▸ hver
  rw [hms2, List.getElem?_set_ne (fun he => hjk he.symm),
    (archivePass_preserves s a nowA models j).2, hm]
  rfl

/-- C6 counterexample: promoting `v2` archives the prior production
record `v1` (its stage changes), yet the stage change leaves the first
record with its OLD `stage_transitioned_at` value `t0`; only
`archived_at` is stamped. The field is therefore not set on every stage
change. -/
theorem C6_counterexample :
    (transition_model_stage ("v2") ("production") true ("tA") ("tT")
        [recOld1, recStag2]).1.map
        (fun m => (m.stage, m.stage_transitioned_at, m.archived_at))
      = [("archived", some ("t0"), some ("tA")),
         ("production", some ("tT"), none)] := by
  decide

/-- Witness for `C6_stage_transitioned_at_target_only` at the concrete
state of the counterexample: the target gets `stage_transitioned_at`
stamped with `tT`, and the side-effect-archived record at index 0 keeps
its old value `t0`. -/
theorem C6_stage_transitioned_at_target_only_witness :
    recStag2Prod.stage_transitioned_at = some ("tT") ∧
    ([recOld1Arch, recStag2Prod] : List ModelRecord)[0]?.map
        (fun r : ModelRecord => r.stage_transitioned_at)
      = some (some ("t0")) := by
  have h := C6_stage_transitioned_at_target_only ("v2") ("production") true
    ("tA") ("tT") [recOld1, recStag2] [recOld1Arch, recStag2Prod] recStag2Prod
    (by decide)
  exact ⟨h.1, h.2 0 recOld1 (by decide) (by decide)⟩

/-! ### C10 -/

/-- C10: when the archive pass is inactive — promotion to production
with `archive_existing=False`, or any transition to a stage other than
production — a successful `transition_model_stage` replaces exactly the
first record whose version matches, and the replacement differs from the
old record only in its `stage` and `stage_transitioned_at` fields (the
record-update expression below keeps every other field); every other
position of the registry file is left unchanged. A prior production
record therefore stays at production, and the witness exhibits a state
with two simultaneous production records after such a call. -/
theorem C10_frame (v s : String) (a : Bool) (nowA nowT : String)
    (models ms2 : List ModelRecord) (u : ModelRecord)
    (hcond : s ≠ "production" ∨ a = false)
    (h : transition_model_stage v s a nowA nowT models = (ms2, Except.ok u)) :
    ∃ k, ∃ hk : k < models.length,
      (models.get ⟨k, hk⟩).version = v ∧
      u = { models.get ⟨k, hk⟩ with
              stage := s, stage_transitioned_at := some nowT } ∧
      ms2 = models.set k u ∧
      ∀ j : Nat, j ≠ k → ms2[j]? = models[j]? := by
  have hap := archivePass_off s a nowA models hcond
  simp only [transition_model_stage, hap] at h
  cases hup : updateFirst v s nowT models with
  | none => rw [hup] at h; simp at h
  | some p =>
    obtain ⟨ms', u'⟩ := p
    rw [hup] at h
    obtain ⟨h1, h2⟩ := Prod.mk.injEq .. ▸ h
    have h2u : u' = u := Except.ok.inj h2
    obtain ⟨k, hk, hver, hu, hset, _⟩ := updateFirst_spec v s nowT hup
    refine ⟨k, hk, hver, h2u ▸ hu, h1 ▸ h2u ▸ hset, ?_⟩
    intro j hj
    rw [← h1, hset, List.getElem?_set_ne (fun he => hj he.symm)]

/-- Witness for `C10_frame`: promoting `v2` with `archive_existing =
false` while `v1` is already at production; afterwards BOTH records are
at production (count 2), and position 0 is byte-for-byte the old record. -/
theorem C10_frame_witness :
    (∃ k, ∃ hk : k < ([recProd1, recStag2] : List ModelRecord).length,
      (([recProd1, recStag2] : List ModelRecord).get ⟨k, hk⟩).version = "v2" ∧
      recStag2Prod
        = { ([recProd1, recStag2] : List ModelRecord).get ⟨k, hk⟩ with
              stage := "production", stage_transitioned_at := some ("tT") } ∧
      ([recProd1, recStag2Prod] : List ModelRecord)
        = ([recProd1, recStag2] : List ModelRecord).set k recStag2Prod ∧
      ∀ j : Nat, j ≠ k →
        ([recProd1, recStag2Prod] : List ModelRecord)[j]?
          = ([recProd1, recStag2] : List ModelRecord)[j]?) ∧
    ([recProd1, recStag2Prod] : List ModelRecord).countP
      (fun m => m.stage == "production") = 2 := by
  have h := C10_frame ("v2") ("production") false ("tA") ("tT")
    [recProd1, recStag2] [recProd1, recStag2Prod] recStag2Prod
    (Or.inr rfl) (by decide)
  exact ⟨h, by decide⟩

/-! ### C2 -/

/-- C2, code evaluated at the failing input. `register_model` appends
each new record at the END of the file list (line 155), so in a registry
where `v1` was registered first and `v2` second, the latest version is
`v2`, the last element. Yet `get_model` with the version omitted returns
`models[0]` (line 213) — the FIRST, oldest record `v1` — directly under
the comment `# Return latest version` and a docstring promising "latest
if None". The last two conjuncts record the halves of the claim the code
does satisfy: exact-match lookup for an explicit version, and failure
when no record matches. -/
theorem C2_get_model_returns_oldest :
    get_model [mkRec ("v1") ("staging") ("t1"), mkRec ("v2") ("staging") ("t2")]
        none
      = Except.ok (mkRec ("v1") ("staging") ("t1")) ∧
    mkRec ("v1") ("staging") ("t1") ≠ mkRec ("v2") ("staging") ("t2") ∧
    get_model [mkRec ("v1") ("staging") ("t1"), mkRec ("v2") ("staging") ("t2")]
        (some ("v2"))
      = Except.ok (mkRec ("v2") ("staging") ("t2")) ∧
    get_model [mkRec ("v1") ("staging") ("t1")] (some ("v9"))
      = Except.error ("Version " ++ "v9" ++ " not found for model") := by
  decide

/-! ### C3 -/

/-- C3: when S3 is configured and the artifact-directory upload raises,
the exception propagates out of `register_model` (there is no handler
around lines 112-126) BEFORE the local registry write at lines 144-158
is reached, so the registry file is unchanged: a subsequent list/read of
the model name sees no new record, and no persisted record can reference
the partial upload location. Metadata is committed only on the success
path, after the upload calls return. -/
theorem C3_no_partial_write (env : RegisterEnv) (run : RunInfo)
    (run_id model_name stage : String) (description : Option String)
    (tags metadata : Option (List (String × String)))
    (models : List ModelRecord) (e : String)
    (hs3 : env.s3Configured = true)
    (hup : env.uploadDirResult = Except.error e) :
    register_model env run run_id model_name stage description tags metadata
        models
      = (models, Except.error e) := by
  simp only [register_model, hs3, if_true, hup]

/-- Witness for `C3_no_partial_write`: a concrete failing upload on a
one-record registry leaves the record list exactly as it was. -/
theorem C3_no_partial_write_witness :
    register_model envUploadFail demoRun ("run-1") ("churn") ("staging")
        none none none [recProd1]
      = ([recProd1], Except.error ("upload failed")) :=
  C3_no_partial_write envUploadFail demoRun ("run-1") ("churn") ("staging")
    none none none [recProd1] ("upload failed") rfl rfl

/-! ### C7 -/

/-- A successful `register_model` appended exactly one record, the
returned one, whose metric/param maps are the run snapshot and whose
tags are the caller-supplied dict. -/
theorem register_model_ok (env : RegisterEnv) (run : RunInfo)
    (run_id model_name stage : String) (description : Option String)
    (tags metadata : Option (List (String × String)))
    (models ms2 : List ModelRecord) (md : ModelRecord)
    (h : register_model env run run_id model_name stage description tags metadata
          models = (ms2, Except.ok md)) :
    ms2 = models ++ [md] ∧ md.metrics = run.metrics ∧ md.params = run.params ∧
    md.tags = tags.getD [] := by
  by_cases hs3 : env.s3Configured = true
  · simp only [register_model, hs3, if_true] at h
    cases hup : env.uploadDirResult with
    | error e => rw [hup] at h; simp at h
    | ok _ =>
      rw [hup] at h
      cases hpm : env.putMetadataResult with
      | error e => rw [hpm] at h; simp at h
      | ok _ =>
        rw [hpm] at h
        obtain ⟨h1, h2⟩ := Prod.mk.injEq .. ▸ h
        have h2m := Except.ok.inj h2
        exact ⟨h1 ▸ h2m ▸ rfl, h2m ▸ rfl, h2m ▸ rfl, h2m ▸ rfl⟩
  · simp only [register_model, hs3, if_false] at h
    obtain ⟨h1, h2⟩ := Prod.mk.injEq .. ▸ h
    have h2m := Except.ok.inj h2
    exact ⟨h1 ▸ h2m ▸ rfl, h2m ▸ rfl, h2m ▸ rfl, h2m ▸ rfl⟩

/-- C7: round-trip. A successful `register_model` followed by
`get_model` with the returned version id yields exactly the stored
record, whose `metrics` and `params` equal the source-run snapshot
copied at registration time (lines 92-93) and whose `tags` equal the
caller-supplied dict (line 91). The hypothesis `hfresh` — the generated
version id is not already present in the file — is the uniqueness that
claim C8 discusses; `get_model` scans in file order, so a colliding
older record would shadow the new one. -/
theorem C7_round_trip (env : RegisterEnv) (run : RunInfo)
    (run_id model_name stage : String) (description : Option String)
    (tags metadata : Option (List (String × String)))
    (models ms2 : List ModelRecord) (md : ModelRecord)
    (h : register_model env run run_id model_name stage description tags metadata
          models = (ms2, Except.ok md))
    (hfresh : ∀ m ∈ models, m.version ≠ md.version) :
    get_model ms2 (some md.version) = Except.ok md ∧
    md.metrics = run.metrics ∧ md.params = run.params ∧
    md.tags = tags.getD [] := by
  obtain ⟨hms2, hm, hp, ht⟩ := register_model_ok env run run_id model_name stage
    description tags metadata models ms2 md h
  refine ⟨?_, hm, hp, ht⟩
  have hfind : (models ++ [md]).find? (fun m => m.version == md.version)
      = some md := by
    rw [List.find?_append]
    have h1 : models.find? (fun m => m.version == md.version) = none :=
      List.find?_eq_none.mpr (fun x hx => by
        simpa [beq_iff_eq] using hfresh x hx)
    rw [h1]
    simp [List.find?]
  obtain ⟨m0, rest, hcons⟩ : ∃ m0 rest, models ++ [md] = m0 :: rest := by
    cases hx : models ++ [md] with
    | nil => exact absurd hx (by simp)
    | cons a b => exact ⟨a, b, rfl⟩
  rw [hms2, hcons]
  rw [hcons] at hfind
  simp [get_model, hfind]

/-- Witness for `C7_round_trip`: a concrete successful registration on
an empty registry, read back by its version id. -/
theorem C7_round_trip_witness :
    get_model regOkCall.1 (some regOkRec.version) = Except.ok regOkRec ∧
    regOkRec.metrics = demoRun.metrics ∧
    regOkRec.params = demoRun.params ∧
    regOkRec.tags = (some [("team", "ml")]).getD [] :=
  C7_round_trip envOk demoRun ("run-1") ("churn") ("staging") none
    (some [("team", "ml")]) none [] regOkCall.1 regOkRec (by decide)
    (by decide)

/-! ### C8 -/

theorem padNum_length (w n : Nat) : (padNum w n).length = w := by
  show ((List.range w).map
    (fun i => Nat.digitChar (n / 10 ^ (w - 1 - i) % 10))).length = w
  rw [List.length_map, List.length_range]

theorem padNum_digits (w n : Nat) : ∀ c ∈ (padNum w n).data, c.isDigit = true := by
  intro c hc
  obtain ⟨i, _, rfl⟩ := List.mem_map.mp hc
  have h10 : n / 10 ^ (w - 1 - i) % 10 < 10 := Nat.mod_lt _ (by omega)
  have hall : ∀ m, m < 10 → (Nat.digitChar m).isDigit = true := by decide
  exact hall _ h10

theorem dateStamp_length (t : UtcNow) : (dateStamp t).length = 8 := by
  simp [dateStamp, String.length_append, padNum_length]

theorem dateStamp_digits (t : UtcNow) :
    ∀ c ∈ (dateStamp t).data, c.isDigit = true := by
  intro c hc
  simp only [dateStamp, String.data_append, List.mem_append] at hc
  rcases hc with (hc | hc) | hc
  · exact padNum_digits 4 t.year c hc
  · exact padNum_digits 2 t.month c hc
  · exact padNum_digits 2 t.day c hc

theorem hexDigits_length (n : Nat) : (hexDigits n).length = 64 := by
  rw [hexDigits, List.length_map, List.length_range]

theorem versionHash_length (H : String → Nat) (model_name run_id iso : String) :
    (versionHash H model_name run_id iso).length = 8 := by
  show ((hexDigits (H (hashInput model_name run_id iso))).take 8).length = 8
  rw [List.length_take, hexDigits_length]
  decide

theorem versionHash_hex (H : String → Nat) (model_name run_id iso : String) :
    ∀ c ∈ (versionHash H model_name run_id iso).data, isLowerHexDigit c = true := by
  intro c hc
  have hm : c ∈ hexDigits (H (hashInput model_name run_id iso)) :=
    (List.take_sublist 8 _).subset hc
  obtain ⟨i, _, rfl⟩ := List.mem_map.mp hm
  have h16 : H (hashInput model_name run_id iso) / 16 ^ (63 - i) % 16 < 16 :=
    Nat.mod_lt _ (by omega)
  have hall : ∀ m, m < 16 → isLowerHexDigit (Nat.digitChar m) = true := by decide
  exact hall _ h16

theorem hashInput_ne (model_name run_id iso iso2 : String) (h : iso ≠ iso2) :
    hashInput model_name run_id iso ≠ hashInput model_name run_id iso2 := by
  intro hc
  apply h
  have hd := congrArg String.data hc
  simp only [hashInput, String.data_append, List.append_assoc] at hd
  exact String.ext (List.append_cancel_left (List.append_cancel_left
    (List.append_cancel_left (List.append_cancel_left hd))))

theorem versionId_ne_of_hash_ne (H : String → Nat)
    (model_name run_id iso iso2 : String) (t t2 : UtcNow)
    (h : versionHash H model_name run_id iso
          ≠ versionHash H model_name run_id iso2) :
    versionId H model_name run_id iso (dateStamp t)
      ≠ versionId H model_name run_id iso2 (dateStamp t2) := by
  intro hc
  apply h
  have hd := congrArg String.data hc
  simp only [versionId, String.data_append] at hd
  apply String.ext
  refine List.append_inj_right hd ?_
  have e1 : (dateStamp t).data.length = 8 := dateStamp_length t
  have e2 : (dateStamp t2).data.length = 8 := dateStamp_length t2
  simp [List.length_append, e1, e2]

/-- C8 (amended): every version id produced at lines 100-104 has the
exact shape `v<date-stamp>_<hash8>` where the date stamp is the 8-digit
`%Y%m%d` rendering of a `utcnow()` draw and `hash8` is the 8-character
lowercase-hex truncation of the sha256 hexdigest; the hashed string
contains the `utcnow().isoformat()` draw, so any two calls observing
different timestamps hash different inputs; and two calls whose
truncated digests differ get distinct version ids. What the original
claim adds — that repeated calls ALWAYS produce distinct ids, even
within the same second — is false: the counterexample below runs two
registrations with identical inputs whose `utcnow()` draws fall in the
same microsecond (hence the same second), and they produce the same id.
Distinctness relies on the drawn timestamps differing at microsecond
resolution and on the absence of truncated-digest collisions; neither is
unconditionally guaranteed by the code. The digest oracle `H` is
universally quantified: every conjunct holds for real sha256. -/
theorem C8_version_format (H : String → Nat)
    (model_name run_id iso : String) (t : UtcNow) :
    versionId H model_name run_id iso (dateStamp t)
      = "v" ++ dateStamp t ++ "_" ++ versionHash H model_name run_id iso ∧
    (dateStamp t).length = 8 ∧
    (∀ c ∈ (dateStamp t).data, c.isDigit = true) ∧
    (versionHash H model_name run_id iso).length = 8 ∧
    (∀ c ∈ (versionHash H model_name run_id iso).data,
      isLowerHexDigit c = true) ∧
    (∀ iso2, iso ≠ iso2 →
      hashInput model_name run_id iso ≠ hashInput model_name run_id iso2) ∧
    (∀ iso2 t2, versionHash H model_name run_id iso
        ≠ versionHash H model_name run_id iso2 →
      versionId H model_name run_id iso (dateStamp t)
        ≠ versionId H model_name run_id iso2 (dateStamp t2)) :=
  ⟨rfl, dateStamp_length t, dateStamp_digits t,
    versionHash_length H model_name run_id iso,
    versionHash_hex H model_name run_id iso,
    fun iso2 hne => hashInput_ne model_name run_id iso iso2 hne,
    fun iso2 t2 hne =>
      versionId_ne_of_hash_ne H model_name run_id iso iso2 t t2 hne⟩

/-- C8 counterexample: two `register_model` calls with identical inputs
whose `utcnow()` draws are the same microsecond value (and hence fall
within the same second) both succeed and produce the SAME version id —
the second call appends a duplicate id to the registry file. Equal
inputs are hashed to equal digests by any digest function, real sha256
included, so this refutes the unconditional distinctness the claim
states. -/
theorem C8_counterexample :
    versionOfOutcome regSame1 = versionOfOutcome regSame2 ∧
    (versionOfOutcome regSame1).isSome = true ∧
    regSame2.1.map (fun m => m.version)
      = [versionId demoHash ("churn") ("run-1") tSame.iso (dateStamp tSame),
         versionId demoHash ("churn") ("run-1") tSame.iso (dateStamp tSame)] := by
  decide

/-- Witness for `C8_version_format` at a concrete oracle and concrete
timestamps: the format conjuncts, a different-microsecond draw giving a
different hash input, and a digest-changing input giving a different
version id. -/
theorem C8_version_format_witness :
    versionId demoHash ("churn") ("run-1") tSame.iso (dateStamp tSame)
      = "v" ++ dateStamp tSame ++ "_"
          ++ versionHash demoHash ("churn") ("run-1") tSame.iso ∧
    (dateStamp tSame).length = 8 ∧
    (versionHash demoHash ("churn") ("run-1") tSame.iso).length = 8 ∧
    hashInput ("churn") ("run-1") tSame.iso
      ≠ hashInput ("churn") ("run-1") tLater.iso ∧
    versionId demoHash ("churn") ("run-1") tSame.iso (dateStamp tSame)
      ≠ versionId demoHash ("churn") ("run-1") (tSame.iso ++ "0")
          (dateStamp tLater) := by
  have h := C8_version_format demoHash ("churn") ("run-1") tSame.iso tSame
  exact ⟨h.1, h.2.1, h.2.2.2.1, h.2.2.2.2.2.1 tLater.iso (by decide),
    h.2.2.2.2.2.2 (tSame.iso ++ "0") tLater (by decide)⟩

/-! ### C5 -/

/-- C5 (amended): `_load_model_from_path` selects a single strategy by
APPLICABILITY, in the fixed order marker-file, first `*.pkl` file, first
`*.joblib` file, first `*.cloudpickle` file, and returns that strategy's
outcome as-is: a loader failure PROPAGATES — nothing is wrapped, so
control never falls through to a later strategy (the counterexample
below shows a failing marker-file loader masking a loadable pickle).
Only when no strategy is applicable does it raise, and that error names
the artifact path only, not the attempted strategies and their errors. -/
theorem C5_loader_first_applicable (d : ArtifactDir) :
    (d.hasMLmodel = true → load_model_from_path d = d.mlflowLoadResult) ∧
    (d.hasMLmodel = false → ∀ f r rest, d.pklFiles = (f, r) :: rest →
      load_model_from_path d = r) ∧
    (d.hasMLmodel = false → d.pklFiles = [] → ∀ f r rest,
      d.joblibFiles = (f, r) :: rest → load_model_from_path d = r) ∧
    (d.hasMLmodel = false → d.pklFiles = [] → d.joblibFiles = [] →
      ∀ f r rest, d.cloudpickleFiles = (f, r) :: rest →
        load_model_from_path d = r) ∧
    (d.hasMLmodel = false → d.pklFiles = [] → d.joblibFiles = [] →
      d.cloudpickleFiles = [] →
      load_model_from_path d
        = Except.error ("Could not load model from " ++ d.path)) := by
  refine ⟨fun h1 => ?_, fun h1 f r rest h2 => ?_, fun h1 h2 f r rest h3 => ?_,
    fun h1 h2 h3 f r rest h4 => ?_, fun h1 h2 h3 h4 => ?_⟩
  · simp [load_model_from_path, h1]
  · unfold load_model_from_path
    rw [h1, h2]
    simp
  · unfold load_model_from_path
    rw [h1, h2, h3]
    simp
  · unfold load_model_from_path
    rw [h1, h2, h3, h4]
    simp
  · unfold load_model_from_path
    rw [h1, h2, h3, h4]
    simp

/-- C5 counterexample: on a directory whose `MLmodel` marker is present
but whose mlflow loader fails while a loadable pickle file sits beside
it, the code returns the mlflow failure — it does NOT fall through to
the pickle strategy as the claim describes (the spec-described fallback,
`specFallbackLoad`, would succeed); and on a directory where every
attempted strategy fails, the code's error is the propagated FIRST
failure, not an `UnloadableArtifactError` naming every attempted
strategy and its error as the claim describes. -/
theorem C5_counterexample :
    load_model_from_path dirMarkerFails = Except.error ("mlflow load failed") ∧
    specFallbackLoad dirMarkerFails = Except.ok ("pickle-model") ∧
    load_model_from_path dirAllFail = Except.error ("mlflow boom") ∧
    specFallbackLoad dirAllFail
      = Except.error
          [(("mlflow"), "mlflow boom"), (("pickle:m.pkl"), "pickle boom")] := by
  decide

/-- Witness for `C5_loader_first_applicable`: the marker strategy is
returned as-is when the marker exists; a directory recognized only by
the second-priority pickle strategy loads via it; an unrecognizable
directory produces the path-naming error. -/
theorem C5_loader_first_applicable_witness :
    load_model_from_path dirMarkerFails = dirMarkerFails.mlflowLoadResult ∧
    load_model_from_path dirPklOnly = Except.ok ("pickle-model") ∧
    load_model_from_path dirEmpty
      = Except.error ("Could not load model from " ++ dirEmpty.path) := by
  have h1 := (C5_loader_first_applicable dirMarkerFails).1 rfl
  have h2 := (C5_loader_first_applicable dirPklOnly).2.1 rfl ("model.pkl")
    (Except.ok ("pickle-model")) [] rfl
  have h3 := (C5_loader_first_applicable dirEmpty).2.2.2.2 rfl rfl rfl rfl
  exact ⟨h1, h2, h3⟩

/-! ### C9 -/

theorem flatten_map_filter (p : ModelRecord → Bool)
    (l : List (List ModelRecord)) :
    (l.map (fun xs => xs.filter p)).flatten = l.flatten.filter p := by
  induction l with
  | nil => rfl
  | cons x xs ih =>
    simp only [List.map_cons, List.flatten_cons, List.filter_append, ih]

/-- C9: `list_models` returns exactly the records whose stage passes the
filter — its result is a permutation of filtering the concatenated
registry files (all records when the filter is omitted, since
`stageMatches none` is constantly true) — sorted by `registered_at`
descending. Read-only-ness is reflected in the embedding type itself:
unlike `register_model` and `transition_model_stage`, whose results
carry the post-state of the registry file, `list_models` is a pure
function of the registry state with no state component in its result,
because the code only ever opens the files for reading. -/
theorem C9_list_models (stage : Option String)
    (registry : List (List ModelRecord)) :
    (list_models stage registry).Perm
      (registry.flatten.filter (stageMatches stage)) ∧
    List.Sorted (fun a b : ModelRecord => b.registered_at ≤ a.registered_at)
      (list_models stage registry) := by
  constructor
  · show (((registry.map (fun file => file.filter (stageMatches stage))).flatten).mergeSort
        (fun a b => decide (b.registered_at ≤ a.registered_at))).Perm _
    exact (flatten_map_filter (stageMatches stage) registry)
      ▸ List.mergeSort_perm _ _
  · have htrans : ∀ a b c : ModelRecord,
        (decide (b.registered_at ≤ a.registered_at)) = true →
        (decide (c.registered_at ≤ b.registered_at)) = true →
        (decide (c.registered_at ≤ a.registered_at)) = true := by
      intro a b c hab hbc
      simp only [decide_eq_true_eq] at hab hbc ⊢
      exact le_trans hbc hab
    have htotal : ∀ a b : ModelRecord,
        ((decide (b.registered_at ≤ a.registered_at))
          || (decide (a.registered_at ≤ b.registered_at))) = true := by
      intro a b
      simp only [Bool.or_eq_true, decide_eq_true_eq]
      exact le_total _ _
    have hs := @List.sorted_mergeSort ModelRecord
      (fun a b => decide (b.registered_at ≤ a.registered_at)) htrans htotal
      ((registry.map (fun file => file.filter (stageMatches stage))).flatten)
    show List.Sorted (fun a b : ModelRecord => b.registered_at ≤ a.registered_at)
      (((registry.map (fun file => file.filter (stageMatches stage))).flatten).mergeSort
        (fun a b => decide (b.registered_at ≤ a.registered_at)))
    exact List.Pairwise.imp (fun h => by simpa using h) hs

end MLTrack
